import Mathlib

/-!
Shallow embedding of the `lacrm-onedrive-webhook` service (the variant in
`src/unnamed/part_001`, whose `/tidycal-sync` route carries the blog-field
update; the webhook handshake branch is identical across all three copies).

Modelling conventions:
- JavaScript `undefined`/missing string fields are `Option String` with
  `none`; JS truthiness of a string value is "present and non-empty".
- Timestamps are modelled as integer milliseconds since the epoch (the value
  of `Date.getTime()`); `created_at` is `Option Int`, absent when the raw
  field is missing or falsy.
- External HTTP calls (LACRM, pipeline creation) are an environment record of
  `Except`-returning functions; a thrown error is `Except.error`.
- The Firestore processed-bookings store is the list of booking ids that have
  a document (`wasProcessed` checks only existence); the watermark document is
  `Option Int`.
- Every outbound call and store write performed by the sync loop is logged in
  an effect trace so that at-most-once properties can be stated.
- `Intl.DateTimeFormat` output is an abstract function of the environment.
-/

namespace LacrmSync

/-- JS truthiness of an optional string: `undefined`, `null` and `""` are falsy. -/
def truthyS (o : Option String) : Bool :=
  match o with
  | none => false
  | some s => !s.isEmpty

/-- JS `x || ""` / `x ?? ""` on an optional string. -/
def orEmpty (o : Option String) : String := o.getD ""

/-- The character class of the JS regex `\s` (also the set removed by
`String.prototype.trim`): ASCII whitespace plus the Unicode space
separators, line separators and BOM. -/
def jsWhitespaceChars : List Char :=
  [' ', '\t', '\n', '\r', '\x0b', '\x0c',
   '\u00A0', '\u1680', '\u2000', '\u2001', '\u2002', '\u2003', '\u2004',
   '\u2005', '\u2006', '\u2007', '\u2008', '\u2009', '\u200A',
   '\u2028', '\u2029', '\u202F', '\u205F', '\u3000', '\uFEFF']

def isJsWs (c : Char) : Bool := jsWhitespaceChars.contains c

/-- Right half of `String.prototype.trim`. -/
def trimRightList (l : List Char) : List Char :=
  (l.reverse.dropWhile isJsWs).reverse

/-- `String.prototype.trim` on a character list. -/
def trimWsList (l : List Char) : List Char :=
  trimRightList (l.dropWhile isJsWs)

/-- `String.prototype.trim` (JS semantics, Unicode whitespace set). -/
def jsTrim (s : String) : String := String.mk (trimWsList s.data)

/-- `String.prototype.toLowerCase`, modelled as a per-character lowering. -/
def jsToLower (s : String) : String := String.mk (s.data.map Char.toLower)

/-- The characters stripped by `safeFolderName`: `\ / : * ? " < > | # %`. -/
def badNameChars : List Char :=
  ['\\', '/', ':', '*', '?', '"', '<', '>', '|', '#', '%']

def isBadChar (c : Char) : Bool := badNameChars.contains c

/-- `.replace(/[\\\/:\*\?"<>\|#%]/g, " ")`. -/
def replaceBadList (l : List Char) : List Char :=
  l.map (fun c => if isBadChar c then ' ' else c)

/-- `.replace(/\s+/g, " ")`: every maximal run of whitespace becomes one space. -/
def collapseWsList : List Char → List Char
  | [] => []
  | c :: cs =>
    if isJsWs c then ' ' :: collapseWsList (cs.dropWhile isJsWs)
    else c :: collapseWsList cs
termination_by l => l.length
decreasing_by
  · simp only [List.length_cons]
    exact Nat.lt_succ_of_le (List.dropWhile_sublist _).length_le
  · simp

/-- `(name || "New Contact")`. -/
def fallbackName (name : Option String) : String :=
  if truthyS name then orEmpty name else "New Contact"

/-- `safeFolderName` from the source: replace forbidden characters by spaces,
collapse whitespace runs, trim, and keep the first 100 characters. -/
def safeFolderName (name : Option String) : String :=
  String.mk ((trimWsList (collapseWsList (replaceBadList (fallbackName name).data))).take 100)

/-- Splitting a character list into its maximal whitespace-free words
(used only to state what collapse-then-trim computes). -/
def wordsWsList : List Char → List (List Char)
  | [] => []
  | c :: cs =>
    if isJsWs c then wordsWsList (cs.dropWhile isJsWs)
    else (c :: cs.takeWhile (fun d => !isJsWs d)) :: wordsWsList (cs.dropWhile (fun d => !isJsWs d))
termination_by l => l.length
decreasing_by
  · simp only [List.length_cons]
    exact Nat.lt_succ_of_le (List.dropWhile_sublist _).length_le
  · simp only [List.length_cons]
    exact Nat.lt_succ_of_le (List.dropWhile_sublist _).length_le

/-- One TidyCal question/answer pair; the question text may sit under any of
four alternate keys (all `Option` since `??` skips only null/undefined). -/
structure QA where
  question : Option String
  label : Option String
  text : Option String
  name : Option String
  answer : Option String
deriving DecidableEq, Repr

/-- `(qa?.question ?? qa?.label ?? qa?.text ?? qa?.name ?? "").toString()`. -/
def getQText (qa : QA) : String :=
  orEmpty (qa.question.orElse fun _ => qa.label.orElse fun _ => qa.text.orElse fun _ => qa.name)

/-- `(qa?.answer ?? "").toString().trim()`. -/
def getAnswer (qa : QA) : String := jsTrim (orEmpty qa.answer)

/-- JS `a.includes(b)` for a non-empty pattern. -/
def containsSub (s pat : String) : Bool := (s.splitOn pat).length > 1

structure ParsedQuestions where
  blogAnswer : String
  userMessage : String
deriving DecidableEq, Repr

/-- One iteration of the `for (const qa of questions)` loop in
`parseTidycalQuestions` (the `continue` statements make it a fold). -/
def parseQAStep (acc : ParsedQuestions) (qa : QA) : ParsedQuestions :=
  let qText := jsToLower (getQText qa)
  let answer := getAnswer qa
  if answer.isEmpty then acc
  else if containsSub qText "mailing" then
    if jsToLower answer = "yes please" ∨ jsToLower answer = "no thank you" then
      { acc with blogAnswer := answer }
    else acc
  else if containsSub qText "meeting" then { acc with userMessage := answer }
  else acc

/-- `parseTidycalQuestions`; `none` models a non-array `questions` value. -/
def parseTidycalQuestions (questions : Option (List QA)) : ParsedQuestions :=
  match questions with
  | none => { blogAnswer := "", userMessage := "" }
  | some qs => qs.foldl parseQAStep { blogAnswer := "", userMessage := "" }

/-- `booking.contact` sub-object. -/
structure TcContact where
  email : Option String
  name : Option String
deriving DecidableEq, Repr

/-- A raw booking as consumed by the sync route. `created_at` is the parsed
millisecond timestamp (`none` models a missing or falsy raw field);
`starts_at` stays a raw ISO string because it is only ever formatted. -/
structure Booking where
  id : Option String
  created_at : Option Int
  cancelled_at : Option String
  contact : Option TcContact
  starts_at : Option String
  timezone : Option String
  meeting_url : Option String
  questions : Option (List QA)
deriving DecidableEq, Repr

/-- `2 * 60 * 1000` — the overlap window in milliseconds. -/
def overlapMs : Int := 2 * 60 * 1000

/-- `60 * 60 * 1000` — bootstrap default window when no watermark exists. -/
def hourMs : Int := 60 * 60 * 1000

/-- The candidate filter body:
`if (!b?.id || !b?.created_at) return false; if (b.cancelled_at) return false;`
`return new Date(b.created_at) > cutoff;`. -/
def isCandidate (cutoff : Int) (b : Booking) : Bool :=
  if !truthyS b.id || b.created_at.isNone then false
  else if truthyS b.cancelled_at then false
  else decide (cutoff < b.created_at.getD 0)

/-- One entry of a search result `Email` array. -/
structure EmailEntry where
  Text : Option String
deriving DecidableEq, Repr

/-- One LACRM `GetContacts` search result; `Email := none` models a value
that is not an array (the `Array.isArray` guard). -/
structure SearchResult where
  ContactId : Option String
  Email : Option (List EmailEntry)
deriving DecidableEq, Repr

structure GetContactsResp where
  Results : Option (List SearchResult)
deriving DecidableEq, Repr

structure CreateContactParams where
  IsCompany : Bool
  AssignedTo : Option String
  Name : String
  Email : String
  /-- the optional `[blogFieldKey]: blogAnswer` entry -/
  blogField : Option (String × String)
deriving DecidableEq, Repr

structure CreateContactResp where
  ContactId : Option String
deriving DecidableEq, Repr

structure PipelineParams where
  ContactId : Option String
  PipelineId : Option String
  StatusId : Option String
  Note : String
  Info : String
  Message : String
deriving DecidableEq, Repr

structure PipelineResp where
  PipelineItemId : Option String
deriving DecidableEq, Repr

/-- Environment of external collaborators reached from the sync route. Each
call either returns a parsed response or throws (`Except.error`).
`intlFormat` abstracts the `Intl.DateTimeFormat` rendering of
`formatBookingDateTime` (ISO string and timezone in, display string out). -/
structure CrmEnv where
  getContacts : String → Except String GetContactsResp
  editContact : String → String → String → Except String Unit
  createContact : CreateContactParams → Except String CreateContactResp
  createPipelineItem : PipelineParams → Except String PipelineResp
  intlFormat : String → String → String

/-- The environment variables the sync route reads. -/
structure Config where
  JOB_TOKEN : Option String
  LACRM_BLOG_FIELD : Option String
  LACRM_ASSIGNED_TO : Option String
  LACRM_PIPELINE_ID : Option String
  LACRM_STATUS_ID : Option String
deriving DecidableEq, Repr

/-- `process.env.LACRM_BLOG_FIELD || "Blog"`. -/
def blogFieldKey (cfg : Config) : String :=
  if truthyS cfg.LACRM_BLOG_FIELD then orEmpty cfg.LACRM_BLOG_FIELD else "Blog"

/-- Trace of the outbound calls and store writes the sync loop performs,
each tagged with the booking id being handled when it was issued. -/
inductive Effect where
  | searchContacts (bookingId : String) (term : String)
  | createContact (bookingId : String) (p : CreateContactParams)
  | editContact (bookingId : String) (contactId : String) (fieldKey : String) (value : String)
  | createPipelineItem (bookingId : String) (p : PipelineParams)
  | markProcessed (bookingId : String)
  | setLastSync (iso : Int)
deriving DecidableEq, Repr

/-- The booking a trace entry was issued for (`none` for the watermark write). -/
def Effect.bookingTag : Effect → Option String
  | .searchContacts b _ => some b
  | .createContact b _ => some b
  | .editContact b _ _ _ => some b
  | .createPipelineItem b _ => some b
  | .markProcessed b => some b
  | .setLastSync _ => none

def isCreateContactEffect : Effect → Bool
  | .createContact _ _ => true
  | _ => false

def isPipelineCreateEffect : Effect → Bool
  | .createPipelineItem _ _ => true
  | _ => false

/-- A Contact Directory call (search, create, edit, or pipeline creation). -/
def isCrmCallEffect : Effect → Bool
  | .searchContacts _ _ => true
  | .createContact _ _ => true
  | .editContact _ _ _ _ => true
  | .createPipelineItem _ _ => true
  | _ => false

/-- Trace entries of kind `q` issued for booking `id`. -/
def effectFor (q : Effect → Bool) (id : String) (e : Effect) : Bool :=
  q e && (Effect.bookingTag e == some id)

/-- Mutable state of the candidate loop: the processed-bookings store, the
four outcome counters, and the trace accumulated so far. -/
structure LoopState where
  processed : List String
  createdContacts : Nat
  updatedContacts : Nat
  pipelineItems : Nat
  skipped : Nat
  effects : List Effect
deriving DecidableEq, Repr

/-- `formatBookingDateTime` — empty when `starts_at` is falsy, otherwise the
abstract `Intl` rendering with the `Europe/London` timezone fallback. -/
def formatBookingDateTime (env : CrmEnv) (startsAt tz : Option String) : String :=
  if truthyS startsAt then
    env.intlFormat (orEmpty startsAt) (if truthyS tz then orEmpty tz else "Europe/London")
  else ""

/-- The `infoLines` template: non-null lines joined by newlines. -/
def infoLines (formatted bookingId : String) (timezone meetingUrl : Option String) : String :=
  String.intercalate "\n"
    (([some ("Date & Time: " ++ formatted),
       some ("Booking ID: " ++ bookingId),
       if truthyS timezone then some ("Timezone: " ++ orEmpty timezone) else none,
       if truthyS meetingUrl then some ("Meeting URL: " ++ orEmpty meetingUrl) else none]
      : List (Option String)).filterMap id)

/-- The `CreatePipelineItem` parameter block built for a booking. -/
def pipelineParamsOf (cfg : Config) (env : CrmEnv) (bookingId : String) (b : Booking)
    (contactId : Option String) (userMessage : String) : PipelineParams :=
  let formatted := formatBookingDateTime env b.starts_at b.timezone
  { ContactId := contactId
    PipelineId := cfg.LACRM_PIPELINE_ID
    StatusId := cfg.LACRM_STATUS_ID
    Note := "TidyCal booking - " ++ formatted
    Info := infoLines formatted bookingId b.timezone b.meeting_url
    Message := userMessage }

/-- Tail of the loop body after a contact id has been resolved: issue
`CreatePipelineItem`, count it when an id is reported, and mark the booking
processed. -/
def finishPipeline (cfg : Config) (env : CrmEnv) (bookingId : String) (b : Booking)
    (contactId : Option String) (userMessage : String) (st : LoopState) :
    LoopState × Option String :=
  let p := pipelineParamsOf cfg env bookingId b contactId userMessage
  let st1 : LoopState := { st with effects := st.effects ++ [Effect.createPipelineItem bookingId p] }
  match env.createPipelineItem p with
  | .error e => (st1, some e)
  | .ok piped =>
    let st2 : LoopState :=
      if truthyS piped.PipelineItemId then { st1 with pipelineItems := st1.pipelineItems + 1 }
      else st1
    ({ st2 with
        processed := bookingId :: st2.processed
        effects := st2.effects ++ [Effect.markProcessed bookingId] }, none)

/-- `(e.Text || "").toLowerCase() === email.toLowerCase()`. -/
def emailEntryMatches (email : String) (e : EmailEntry) : Bool :=
  jsToLower (orEmpty e.Text) == jsToLower email

/-- The `results.find` predicate: `Array.isArray(c.Email) && c.Email.some(...)`. -/
def resultMatches (email : String) (c : SearchResult) : Bool :=
  match c.Email with
  | some entries => entries.any (emailEntryMatches email)
  | none => false

def findMatch (email : String) (results : List SearchResult) : Option SearchResult :=
  results.find? (resultMatches email)

/-- Truthiness of `match?.ContactId`. -/
def matchedContactId (m : Option SearchResult) : Option String :=
  match m with
  | some c =>
    match c.ContactId with
    | some cid => if cid.isEmpty then none else some cid
    | none => none
  | none => none

/-- Loop body from the `GetContacts` search on: resolve or create the
contact, optionally push the blog answer, then hand over to
`finishPipeline`. -/
def afterSearch (cfg : Config) (env : CrmEnv) (bookingId email name : String)
    (parsed : ParsedQuestions) (b : Booking) (st : LoopState) : LoopState × Option String :=
  let st1 : LoopState := { st with effects := st.effects ++ [Effect.searchContacts bookingId email] }
  match env.getContacts email with
  | .error e => (st1, some e)
  | .ok resp =>
    match matchedContactId (findMatch email (resp.Results.getD [])) with
    | some cid =>
      let st2 : LoopState := { st1 with updatedContacts := st1.updatedContacts + 1 }
      if parsed.blogAnswer.isEmpty then
        finishPipeline cfg env bookingId b (some cid) parsed.userMessage st2
      else
        let st3 : LoopState :=
          { st2 with effects := st2.effects ++
              [Effect.editContact bookingId cid (blogFieldKey cfg) parsed.blogAnswer] }
        match env.editContact cid (blogFieldKey cfg) parsed.blogAnswer with
        | .error e => (st3, some e)
        | .ok _ => finishPipeline cfg env bookingId b (some cid) parsed.userMessage st3
    | none =>
      let p : CreateContactParams :=
        { IsCompany := false
          AssignedTo := cfg.LACRM_ASSIGNED_TO
          Name := if name.isEmpty then email else name
          Email := email
          blogField :=
            if parsed.blogAnswer.isEmpty then none
            else some (blogFieldKey cfg, parsed.blogAnswer) }
      let st2 : LoopState := { st1 with effects := st1.effects ++ [Effect.createContact bookingId p] }
      match env.createContact p with
      | .error e => (st2, some e)
      | .ok created =>
        let st3 : LoopState := { st2 with createdContacts := st2.createdContacts + 1 }
        finishPipeline cfg env bookingId b created.ContactId parsed.userMessage st3

/-- `String(booking.id)` as used for the processed-store key. -/
def bookingKey (b : Booking) : String := orEmpty b.id

/-- `(contact.email || "").trim()` for `booking.contact || {}`. -/
def emailOf (b : Booking) : String :=
  jsTrim (orEmpty (b.contact.getD { email := none, name := none }).email)

/-- `(contact.name || "").trim()`. -/
def nameOf (b : Booking) : String :=
  jsTrim (orEmpty (b.contact.getD { email := none, name := none }).name)

/-- One iteration of the candidate loop. -/
def processCandidate (cfg : Config) (env : CrmEnv) (st : LoopState) (b : Booking) :
    LoopState × Option String :=
  let bookingId := bookingKey b
  if bookingId ∈ st.processed then
    ({ st with skipped := st.skipped + 1 }, none)
  else if (emailOf b).isEmpty then
    ({ st with
        processed := bookingId :: st.processed
        skipped := st.skipped + 1
        effects := st.effects ++ [Effect.markProcessed bookingId] }, none)
  else
    afterSearch cfg env bookingId (emailOf b) (nameOf b) (parseTidycalQuestions b.questions) b st

/-- The candidate loop; a thrown error aborts the remaining iterations but
keeps the store writes already made. -/
def runLoop (cfg : Config) (env : CrmEnv) : LoopState → List Booking → LoopState × Option String
  | st, [] => (st, none)
  | st, b :: bs =>
    match processCandidate cfg env st b with
    | (st1, none) => runLoop cfg env st1 bs
    | (st1, some e) => (st1, some e)

/-- Persisted state of the reconciler: the watermark document and the set of
processed booking ids. -/
structure SyncState where
  lastSyncIso : Option Int
  processed : List String
deriving DecidableEq, Repr

/-- The success response body of the sync route. -/
structure SyncOutcome where
  lastSyncWas : Option Int
  nowIso : Int
  fetched : Nat
  candidates : Nat
  createdContacts : Nat
  updatedContacts : Nat
  pipelineItems : Nat
  skipped : Nat
deriving DecidableEq, Repr

structure PassResult where
  state : SyncState
  effects : List Effect
  response : Except String SyncOutcome

/-- `lastSyncDate`: the stored watermark, or one hour before `Date.now()`
when none exists. -/
def lastSyncBase (dateNowMs : Int) (st : SyncState) : Int :=
  match st.lastSyncIso with
  | some w => w
  | none => dateNowMs - hourMs

/-- `cutoff = lastSyncDate - overlapMs`. -/
def syncCutoff (dateNowMs : Int) (st : SyncState) : Int :=
  lastSyncBase dateNowMs st - overlapMs

/-- The loop state at the top of the candidate loop: counters at zero, the
persisted processed set, and an empty trace. -/
def initLoopState (st : SyncState) : LoopState :=
  { processed := st.processed, createdContacts := 0, updatedContacts := 0,
    pipelineItems := 0, skipped := 0, effects := [] }

/-- One sync pass (the body of the `/tidycal-sync` handler after auth).
`nowMs` is the `new Date()` captured before the try block; `dateNowMs` is
the later `Date.now()` used only for the bootstrap default watermark;
`fetched` is the outcome of `tidycalFetchBookings` (`Except.error` when the
fetch or shape check throws). -/
def runSyncPass (cfg : Config) (env : CrmEnv) (nowMs dateNowMs : Int) (st : SyncState)
    (fetched : Except String (List Booking)) : PassResult :=
  let cutoff := syncCutoff dateNowMs st
  match fetched with
  | .error e => { state := st, effects := [], response := .error e }
  | .ok bookings =>
    let cands := bookings.filter (isCandidate cutoff)
    match runLoop cfg env (initLoopState st) cands with
    | (ls, some e) =>
      { state := { st with processed := ls.processed }, effects := ls.effects, response := .error e }
    | (ls, none) =>
      { state := { lastSyncIso := some nowMs, processed := ls.processed }
        effects := ls.effects ++ [Effect.setLastSync nowMs]
        response := .ok
          { lastSyncWas := st.lastSyncIso, nowIso := nowMs, fetched := bookings.length,
            candidates := cands.length, createdContacts := ls.createdContacts,
            updatedContacts := ls.updatedContacts, pipelineItems := ls.pipelineItems,
            skipped := ls.skipped } }

/-- `requireJobToken`: `none` means the request may proceed; otherwise the
status code and body of the rejection. -/
def requireJobToken (cfg : Config) (header : Option String) : Option (Nat × String) :=
  if !truthyS cfg.JOB_TOKEN then some (500, "Missing JOB_TOKEN env var")
  else if orEmpty header ≠ orEmpty cfg.JOB_TOKEN then some (403, "Forbidden")
  else none

inductive SyncResponse where
  | rejected (status : Nat) (body : String)
  | passed (outcome : SyncOutcome)
  | failed (error : String)
deriving DecidableEq, Repr

/-- The full `/tidycal-sync` handler: auth gate, then the pass. -/
def tidycalSyncRoute (cfg : Config) (env : CrmEnv) (jobTokenHeader : Option String)
    (nowMs dateNowMs : Int) (st : SyncState) (fetched : Except String (List Booking)) :
    SyncState × List Effect × SyncResponse :=
  match requireJobToken cfg jobTokenHeader with
  | some (code, msg) => (st, [], .rejected code msg)
  | none =>
    let pr := runSyncPass cfg env nowMs dateNowMs st fetched
    match pr.response with
    | .ok o => (pr.state, pr.effects, .passed o)
    | .error e => (pr.state, pr.effects, .failed e)

/-- Environment read by the webhook route. -/
structure WebhookCfg where
  LACRM_HOOK_SECRET : Option String
  LACRM_ONEDRIVE_FIELD : Option String
deriving DecidableEq, Repr

structure HookPayloadContact where
  ContactId : Option String
deriving DecidableEq, Repr

/-- The parsed webhook JSON payload, as far as the handler inspects it. -/
structure HookPayload where
  TriggeringEvent : Option String
  Contacts : Option (List HookPayloadContact)
deriving DecidableEq, Repr

/-- The `contact.Name` field: a plain string, an object with name parts, or
absent. -/
inductive NameField where
  | str (s : String)
  | obj (FirstName : Option String) (LastName : Option String)
  | absent
deriving DecidableEq, Repr

/-- `GetContact` response, as far as the handler inspects it. -/
structure ContactResp where
  Name : NameField
  CompanyName : Option String
deriving DecidableEq, Repr

/-- The display-name ternary chain of the webhook handler. -/
def displayNameOf (c : ContactResp) : String :=
  match c.Name with
  | .str s => s
  | .obj f l =>
    if truthyS f || truthyS l then jsTrim (orEmpty f ++ " " ++ orEmpty l)
    else if truthyS c.CompanyName then orEmpty c.CompanyName else "New Contact"
  | .absent => if truthyS c.CompanyName then orEmpty c.CompanyName else "New Contact"

/-- `timingSafeEq`: constant-time comparison of equal-length byte buffers,
modelled extensionally as string equality. -/
def timingSafeEq (a b : String) : Bool := a == b

/-- Trace of observable work the webhook handler performs past the
handshake branch. -/
inductive WebhookEffect where
  | hmacComputed
  | jsonParsed
  | getContact (contactId : String)
  | createFolder (folderName : String)
  | editContact (contactId : String) (fieldKey : String) (url : String)
deriving DecidableEq, Repr

/-- External collaborators of the webhook route. `hmacSha256Hex` abstracts
the HMAC digest; `parseJson` abstracts `JSON.parse` (`none` = throw). -/
structure WebhookEnv where
  hmacSha256Hex : String → String → String
  parseJson : String → Option HookPayload
  getContact : String → Except String ContactResp
  createFolder : String → Except String String
  editContact : String → String → String → Except String Unit

inductive WebhookResponse where
  | handshake (echoed : String)
  | missingSecretConfig
  | badSignature
  | invalidJson
  | ignored
  | okDone
  | handlerError
deriving DecidableEq, Repr

/-- HTTP status of each webhook response. -/
def WebhookResponse.status : WebhookResponse → Nat
  | .handshake _ => 200
  | .missingSecretConfig => 500
  | .badSignature => 401
  | .invalidJson => 400
  | .ignored => 200
  | .okDone => 200
  | .handlerError => 500

/-- The value echoed in the `X-Hook-Secret` response header, when any. -/
def WebhookResponse.echoedSecret : WebhookResponse → Option String
  | .handshake s => some s
  | _ => none

/-- The `app.post("/")` webhook handler of `src/unnamed/part_001`
(identical in the other two copies up to the error envelope). -/
def webhookHandler (cfg : WebhookCfg) (env : WebhookEnv)
    (hookSecretHeader sigHeader : Option String) (rawBody : String) :
    WebhookResponse × List WebhookEffect :=
  if truthyS hookSecretHeader then
    (.handshake (orEmpty hookSecretHeader), [])
  else if !truthyS cfg.LACRM_HOOK_SECRET then
    (.missingSecretConfig, [])
  else
    let computed := env.hmacSha256Hex (orEmpty cfg.LACRM_HOOK_SECRET) rawBody
    let effs0 := [WebhookEffect.hmacComputed]
    if !timingSafeEq computed (orEmpty sigHeader) then (.badSignature, effs0)
    else
      match env.parseJson rawBody with
      | none => (.invalidJson, effs0)
      | some payload =>
        let effs1 := effs0 ++ [WebhookEffect.jsonParsed]
        if payload.TriggeringEvent ≠ some "Contact.Create" ∨ (payload.Contacts.getD []).isEmpty then
          (.ignored, effs1)
        else
          let contactId := orEmpty ((payload.Contacts.getD []).head?.bind (·.ContactId))
          let effs2 := effs1 ++ [WebhookEffect.getContact contactId]
          match env.getContact contactId with
          | .error _ => (.handlerError, effs2)
          | .ok contact =>
            let folderName := safeFolderName (some (displayNameOf contact))
            let effs3 := effs2 ++ [WebhookEffect.createFolder folderName]
            match env.createFolder folderName with
            | .error _ => (.handlerError, effs3)
            | .ok webUrl =>
              let fieldKey := orEmpty cfg.LACRM_ONEDRIVE_FIELD
              let effs4 := effs3 ++ [WebhookEffect.editContact contactId fieldKey webUrl]
              match env.editContact contactId fieldKey webUrl with
              | .error _ => (.handlerError, effs4)
              | .ok _ => (.okDone, effs4)

/-! ### Concrete instances used to exercise the definitions -/

/-- A CRM environment whose calls all succeed; the directory search finds
nothing. -/
def stubEnv : CrmEnv :=
  { getContacts := fun _ => .ok { Results := some [] }
    editContact := fun _ _ _ => .ok ()
    createContact := fun _ => .ok { ContactId := some "c1" }
    createPipelineItem := fun _ => .ok { PipelineItemId := some "p1" }
    intlFormat := fun _ _ => "10:00 01/01/25" }

/-- Like `stubEnv`, but the directory search returns one result whose email
differs from the canonical `a@x.com` only in letter case. -/
def matchResult : SearchResult :=
  { ContactId := some "c9", Email := some [{ Text := some "A@X.com" }] }

def matchEnv : CrmEnv :=
  { stubEnv with getContacts := fun _ => .ok { Results := some [matchResult] } }

/-- Like `stubEnv`, but every `CreatePipelineItem` call throws: the contact
mutation succeeds and the pass then aborts before the mark-processed write. -/
def failPipeEnv : CrmEnv :=
  { stubEnv with createPipelineItem := fun _ => .error "pipe down" }

def cfg0 : Config :=
  { JOB_TOKEN := some "tok", LACRM_BLOG_FIELD := none, LACRM_ASSIGNED_TO := some "u1",
    LACRM_PIPELINE_ID := some "pl", LACRM_STATUS_ID := some "s1" }

/-- A well-formed booking with a usable contact email. -/
def bkA : Booking :=
  { id := some "b1", created_at := some 100, cancelled_at := none,
    contact := some { email := some "a@x.com", name := some "A" },
    starts_at := some "2025-01-01T10:00:00Z", timezone := some "Europe/London",
    meeting_url := none, questions := none }

/-- A booking with no contact object at all (no usable email). -/
def bkNoEmail : Booking :=
  { id := some "b2", created_at := some 100, cancelled_at := none,
    contact := none, starts_at := none, timezone := none,
    meeting_url := none, questions := none }

def st0 : SyncState := { lastSyncIso := some 0, processed := [] }

def ls0 : LoopState := initLoopState st0

def lsP : LoopState := { ls0 with processed := ["b1"] }

def cexWebhookCfg : WebhookCfg :=
  { LACRM_HOOK_SECRET := none, LACRM_ONEDRIVE_FIELD := none }

def cexWebhookEnv : WebhookEnv :=
  { hmacSha256Hex := fun _ _ => "", parseJson := fun _ => none,
    getContact := fun _ => .error "unreached", createFolder := fun _ => .error "unreached",
    editContact := fun _ _ _ => .error "unreached" }

instance {a b : Type} [DecidableEq a] [DecidableEq b] : DecidableEq (Except a b) := by
  intro x y
  cases x <;> cases y
  case error.error ex ey =>
    exact if h : ex = ey then .isTrue (by rw [h]) else .isFalse (by simp [h])
  case error.ok ex oy => exact .isFalse (by simp)
  case ok.error ox ey => exact .isFalse (by simp)
  case ok.ok ox oy =>
    exact if h : ox = oy then .isTrue (by rw [h]) else .isFalse (by simp [h])

/-! ### Lemmas about the folder-name pipeline -/

theorem isJsWs_space : isJsWs ' ' = true := by decide

theorem isBadChar_space : isBadChar ' ' = false := by decide

theorem dropWhile_nonws_self (w : List Char) (h : ∀ x ∈ w, isJsWs x = false) :
    w.dropWhile isJsWs = w := by
  cases w with
  | nil => rfl
  | cons a as =>
    rw [List.dropWhile_cons, if_neg]
    simp [h a (by simp)]

theorem trimRightList_nonws (w : List Char) (h : ∀ x ∈ w, isJsWs x = false) :
    trimRightList w = w := by
  unfold trimRightList
  rw [dropWhile_nonws_self _ (fun x hx => h x (List.mem_reverse.mp hx)), List.reverse_reverse]

theorem trimWsList_nonws (w : List Char) (h : ∀ x ∈ w, isJsWs x = false) :
    trimWsList w = w := by
  unfold trimWsList
  rw [dropWhile_nonws_self _ h, trimRightList_nonws _ h]

theorem trimWsList_cons_space (X : List Char) :
    trimWsList (' ' :: X) = trimWsList X := by
  unfold trimWsList
  rw [List.dropWhile_cons, if_pos isJsWs_space]

theorem trimWsList_cons_nonws (c : Char) (Y : List Char) (h : isJsWs c = false) :
    trimWsList (c :: Y) = trimRightList (c :: Y) := by
  unfold trimWsList
  rw [List.dropWhile_cons, if_neg (by simp [h])]

theorem trimRightList_append (X Y : List Char) (h : trimRightList Y ≠ []) :
    trimRightList (X ++ Y) = X ++ trimRightList Y := by
  have hy : (Y.reverse.dropWhile isJsWs).isEmpty = false := by
    rcases he : Y.reverse.dropWhile isJsWs with _ | ⟨a, as⟩
    · exact absurd (by unfold trimRightList; rw [he]; rfl) h
    · rfl
  unfold trimRightList
  rw [List.reverse_append, List.dropWhile_append, hy]
  simp [List.reverse_append]

theorem trimRightList_concat_space (X : List Char) :
    trimRightList (X ++ [' ']) = trimRightList X := by
  unfold trimRightList
  rw [List.reverse_append]
  simp [List.dropWhile_cons, isJsWs_space]

theorem head_dropWhile_false {p : Char → Bool} {l : List Char} {a : Char} {as : List Char}
    (h : l.dropWhile p = a :: as) : p a = false := by
  induction l with
  | nil => simp at h
  | cons x xs ih =>
    rw [List.dropWhile_cons] at h
    by_cases hx : p x = true
    · exact ih (by rwa [if_pos hx] at h)
    · rw [if_neg hx] at h
      cases h
      simp at hx
      exact hx

theorem collapseWsList_nil : collapseWsList [] = [] := by
  rw [collapseWsList]

theorem collapseWsList_cons_ws (c : Char) (cs : List Char) (h : isJsWs c = true) :
    collapseWsList (c :: cs) = ' ' :: collapseWsList (cs.dropWhile isJsWs) := by
  rw [collapseWsList]; rw [if_pos h]

theorem collapseWsList_cons_nonws (c : Char) (cs : List Char) (h : isJsWs c = false) :
    collapseWsList (c :: cs) = c :: collapseWsList cs := by
  rw [collapseWsList]; rw [if_neg (by simp [h])]

theorem wordsWsList_nil : wordsWsList [] = [] := by
  rw [wordsWsList]

theorem wordsWsList_cons_ws (c : Char) (cs : List Char) (h : isJsWs c = true) :
    wordsWsList (c :: cs) = wordsWsList (cs.dropWhile isJsWs) := by
  rw [wordsWsList]; rw [if_pos h]

theorem wordsWsList_cons_nonws (c : Char) (cs : List Char) (h : isJsWs c = false) :
    wordsWsList (c :: cs) =
      (c :: cs.takeWhile (fun x => !isJsWs x)) :: wordsWsList (cs.dropWhile (fun x => !isJsWs x)) := by
  rw [wordsWsList]; rw [if_neg (by simp [h])]

theorem collapseWsList_nonws_append (w r : List Char) (h : ∀ x ∈ w, isJsWs x = false) :
    collapseWsList (w ++ r) = w ++ collapseWsList r := by
  induction w with
  | nil => rfl
  | cons a as ih =>
    have ha : isJsWs a = false := h a (by simp)
    rw [List.cons_append, collapseWsList, if_neg (by simp [ha]),
      ih (fun x hx => h x (by simp [hx]))]
    rfl

theorem intercalate_space_nil : List.intercalate [' '] ([] : List (List Char)) = [] := rfl

theorem intercalate_space_single (x : List Char) : List.intercalate [' '] [x] = x := by
  simp [List.intercalate, List.intersperse]

theorem intercalate_space_cons (x y : List Char) (zs : List (List Char)) :
    List.intercalate [' '] (x :: y :: zs) = x ++ ' ' :: List.intercalate [' '] (y :: zs) := by
  simp [List.intercalate, List.intersperse]

/-- Collapse-then-trim computes exactly the whitespace-separated words of the
input re-joined with single spaces. -/
theorem trim_collapse_eq_words (l : List Char) :
    trimWsList (collapseWsList l) = List.intercalate [' '] (wordsWsList l) := by
  induction l using wordsWsList.induct with
  | case1 => simp [collapseWsList, wordsWsList, trimWsList, trimRightList, List.intercalate]
  | case2 c cs hws ih =>
    rw [show collapseWsList (c :: cs) = ' ' :: collapseWsList (cs.dropWhile isJsWs) by
        rw [collapseWsList]; rw [if_pos hws],
      trimWsList_cons_space,
      show wordsWsList (c :: cs) = wordsWsList (cs.dropWhile isJsWs) by
        rw [wordsWsList]; rw [if_pos hws]]
    exact ih
  | case3 c cs hws ih =>
    have hc : isJsWs c = false := by simpa using hws
    set t := cs.takeWhile (fun x => !isJsWs x) with ht
    set r := cs.dropWhile (fun x => !isJsWs x) with hr
    have hcs : t ++ r = cs := List.takeWhile_append_dropWhile _ _
    have hw : ∀ x ∈ c :: t, isJsWs x = false := by
      intro x hx
      rcases List.mem_cons.mp hx with rfl | hx
      · exact hc
      · have := List.mem_takeWhile_imp (ht ▸ hx)
        simpa using this
    have hsplit : c :: cs = (c :: t) ++ r := by rw [List.cons_append, hcs]
    have hcoll : collapseWsList (c :: cs) = (c :: t) ++ collapseWsList r := by
      rw [hsplit, collapseWsList_nonws_append _ _ hw]
    rw [wordsWsList_cons_nonws c cs hc, ← ht, ← hr, hcoll]
    rcases hre : r with _ | ⟨e, ds⟩
    · rw [collapseWsList_nil, List.append_nil, trimWsList_nonws _ hw, wordsWsList_nil,
        intercalate_space_single]
    · have he : isJsWs e = true := by
        have := head_dropWhile_false (hr ▸ hre : cs.dropWhile (fun x => !isJsWs x) = e :: ds)
        simpa using this
      rw [hre] at ih
      rw [collapseWsList_cons_ws e ds he] at ih ⊢
      rw [wordsWsList_cons_ws e ds he] at ih ⊢
      rw [trimWsList_cons_space] at ih
      rcases hd2 : ds.dropWhile isJsWs with _ | ⟨f, fs⟩
      · rw [collapseWsList_nil, wordsWsList_nil, intercalate_space_single,
          show ((c :: t) ++ [' '] : List Char) = c :: (t ++ [' ']) from rfl,
          trimWsList_cons_nonws _ _ hc,
          show (c :: (t ++ [' ']) : List Char) = (c :: t) ++ [' '] from rfl,
          trimRightList_concat_space, trimRightList_nonws _ hw]
      · have hf : isJsWs f = false := by
          simpa using head_dropWhile_false hd2
        rw [hd2] at ih
        have htr : trimRightList (collapseWsList (f :: fs)) =
            List.intercalate [' '] (wordsWsList (f :: fs)) := by
          rw [← ih, collapseWsList_cons_nonws f fs hf, trimWsList_cons_nonws _ _ hf]
        have hne : trimRightList (collapseWsList (f :: fs)) ≠ [] := by
          rw [htr, wordsWsList_cons_nonws f fs hf]
          rcases wordsWsList (fs.dropWhile (fun x => !isJsWs x)) with _ | ⟨y, zs⟩
          · rw [intercalate_space_single]; simp
          · rw [intercalate_space_cons]; simp
        rw [show ((c :: t) ++ (' ' :: collapseWsList (f :: fs)) : List Char) =
              c :: (t ++ (' ' :: collapseWsList (f :: fs))) from rfl,
          trimWsList_cons_nonws _ _ hc,
          show (c :: (t ++ (' ' :: collapseWsList (f :: fs))) : List Char) =
              ((c :: t) ++ [' ']) ++ collapseWsList (f :: fs) by simp,
          trimRightList_append _ _ hne, htr]
        rcases hw2 : wordsWsList (f :: fs) with _ | ⟨y, zs⟩
        · rw [wordsWsList_cons_nonws f fs hf] at hw2; cases hw2
        · rw [intercalate_space_cons]
          simp

theorem mem_trimWsList {c : Char} {l : List Char} (h : c ∈ trimWsList l) : c ∈ l := by
  unfold trimWsList trimRightList at h
  have h1 := List.mem_reverse.mp h
  have h2 := (List.dropWhile_sublist isJsWs).mem h1
  have h3 := List.mem_reverse.mp h2
  exact (List.dropWhile_sublist isJsWs).mem h3

theorem mem_collapseWsList {c : Char} {l : List Char} (h : c ∈ collapseWsList l) :
    c = ' ' ∨ c ∈ l := by
  induction l using collapseWsList.induct with
  | case1 => rw [collapseWsList_nil] at h; cases h
  | case2 a as hws ih =>
    rw [collapseWsList_cons_ws a as hws] at h
    rcases List.mem_cons.mp h with rfl | h2
    · exact Or.inl rfl
    · rcases ih h2 with h3 | h3
      · exact Or.inl h3
      · exact Or.inr (List.mem_cons_of_mem _ ((List.dropWhile_sublist isJsWs).mem h3))
  | case3 a as hws ih =>
    have ha : isJsWs a = false := by simpa using hws
    rw [collapseWsList_cons_nonws a as ha] at h
    rcases List.mem_cons.mp h with rfl | h2
    · exact Or.inr (List.mem_cons_self _ _)
    · rcases ih h2 with h3 | h3
      · exact Or.inl h3
      · exact Or.inr (List.mem_cons_of_mem _ h3)

theorem replaceBadList_not_bad {c : Char} {l : List Char} (h : c ∈ replaceBadList l) :
    isBadChar c = false := by
  unfold replaceBadList at h
  rcases List.mem_map.mp h with ⟨x, _, hx⟩
  by_cases hb : isBadChar x = true
  · rw [if_pos hb] at hx
    rw [← hx]
    exact isBadChar_space
  · rw [if_neg hb] at hx
    rw [← hx]
    simpa using hb

/-- C8. `safeFolderName` replaces each of `\ / : * ? " < > | # %` by a space,
collapses every whitespace run to a single space, trims, and truncates to at
most 100 characters: the result before truncation is exactly the
whitespace-separated words of the bad-character-replaced input rejoined with
single spaces, the result never exceeds 100 characters, and none of the
replaced characters survives. -/
theorem safe_folder_name_spec (name : Option String) :
    safeFolderName name =
      String.mk ((List.intercalate [' ']
        (wordsWsList (replaceBadList (fallbackName name).data))).take 100) ∧
    (safeFolderName name).length ≤ 100 ∧
    (safeFolderName name).data.all (fun c => !isBadChar c) = true := by
  refine ⟨?_, ?_, ?_⟩
  · unfold safeFolderName
    rw [trim_collapse_eq_words]
  · have h : (safeFolderName name).length =
        ((trimWsList (collapseWsList (replaceBadList (fallbackName name).data))).take 100).length :=
      rfl
    rw [h, List.length_take]
    exact min_le_left _ _
  · rw [List.all_eq_true]
    intro c hc
    have h1 : c ∈ (trimWsList (collapseWsList (replaceBadList (fallbackName name).data))).take 100 :=
      hc
    have h2 := mem_trimWsList (List.mem_of_mem_take h1)
    rcases mem_collapseWsList h2 with rfl | h3
    · simp [isBadChar_space]
    · simp [replaceBadList_not_bad h3]

/-! ### Structural lemmas about the candidate loop -/

theorem finishPipeline_err (cfg : Config) (env : CrmEnv) (bookingId : String) (b : Booking)
    (contactId : Option String) (userMessage : String) (st : LoopState) (e : String)
    (h : env.createPipelineItem (pipelineParamsOf cfg env bookingId b contactId userMessage) =
      .error e) :
    finishPipeline cfg env bookingId b contactId userMessage st =
      ({ st with effects := st.effects ++
          [Effect.createPipelineItem bookingId
            (pipelineParamsOf cfg env bookingId b contactId userMessage)] }, some e) := by
  simp [finishPipeline, h]

theorem finishPipeline_ok (cfg : Config) (env : CrmEnv) (bookingId : String) (b : Booking)
    (contactId : Option String) (userMessage : String) (st : LoopState) (piped : PipelineResp)
    (h : env.createPipelineItem (pipelineParamsOf cfg env bookingId b contactId userMessage) =
      .ok piped) :
    finishPipeline cfg env bookingId b contactId userMessage st =
      ({ st with
          pipelineItems := st.pipelineItems + (if truthyS piped.PipelineItemId then 1 else 0)
          processed := bookingId :: st.processed
          effects := st.effects ++
            [Effect.createPipelineItem bookingId
              (pipelineParamsOf cfg env bookingId b contactId userMessage),
             Effect.markProcessed bookingId] }, none) := by
  by_cases ht : truthyS piped.PipelineItemId = true
  · simp [finishPipeline, h, ht]
  · simp only [Bool.not_eq_true] at ht
    simp [finishPipeline, h, ht]

theorem afterSearch_spec (cfg : Config) (env : CrmEnv) (bookingId email name : String)
    (parsed : ParsedQuestions) (b : Booking) (st fin : LoopState) (err : Option String)
    (h : afterSearch cfg env bookingId email name parsed b st = (fin, err)) :
    (∃ new, fin.effects = st.effects ++ new ∧
       (∀ e ∈ new, e.bookingTag = some bookingId) ∧
       List.countP isCreateContactEffect new ≤ 1 ∧
       List.countP isPipelineCreateEffect new ≤ 1) ∧
    fin.skipped = st.skipped ∧
    fin.pipelineItems ≤ st.pipelineItems + 1 ∧
    fin.createdContacts + fin.updatedContacts ≤ st.createdContacts + st.updatedContacts + 1 ∧
    (∀ x ∈ st.processed, x ∈ fin.processed) ∧
    (err = none → bookingId ∈ fin.processed ∧
      fin.createdContacts + fin.updatedContacts = st.createdContacts + st.updatedContacts + 1) := by
  rcases hg : env.getContacts email with ge | resp
  · simp only [afterSearch, hg] at h
    injection h with hA hB
    subst hA; subst hB
    refine ⟨⟨[Effect.searchContacts bookingId email], rfl, ?_, ?_, ?_⟩, rfl, ?_, ?_, ?_, ?_⟩ <;>
      (try simp [Effect.bookingTag, isCreateContactEffect, isPipelineCreateEffect]) <;>
      (try intro x hx; simp [hx]) <;> omega
  · rcases hm : matchedContactId (findMatch email (resp.Results.getD [])) with _ | cid
    · -- no match: create the contact
      simp only [afterSearch, hg, hm] at h
      set P : CreateContactParams :=
        { IsCompany := false, AssignedTo := cfg.LACRM_ASSIGNED_TO,
          Name := if name.isEmpty then email else name, Email := email,
          blogField := if parsed.blogAnswer.isEmpty then none
            else some (blogFieldKey cfg, parsed.blogAnswer) } with hP
      rcases hc : env.createContact P with ce | created
      · simp only [hc] at h
        injection h with hA hB
        subst hA; subst hB
        refine ⟨⟨[Effect.searchContacts bookingId email, Effect.createContact bookingId P],
            by simp, ?_, ?_, ?_⟩, rfl, ?_, ?_, ?_, ?_⟩ <;>
          simp [Effect.bookingTag, isCreateContactEffect, isPipelineCreateEffect]
      · simp only [hc] at h
        rcases hp : env.createPipelineItem
            (pipelineParamsOf cfg env bookingId b created.ContactId parsed.userMessage)
            with pe | piped
        · rw [finishPipeline_err _ _ _ _ _ _ _ _ hp] at h
          injection h with hA hB
          subst hA; subst hB
          refine ⟨⟨[Effect.searchContacts bookingId email, Effect.createContact bookingId P,
              Effect.createPipelineItem bookingId
                (pipelineParamsOf cfg env bookingId b created.ContactId parsed.userMessage)],
              by simp, ?_, ?_, ?_⟩, rfl, ?_, ?_, ?_, ?_⟩ <;>
            (try simp [Effect.bookingTag, isCreateContactEffect, isPipelineCreateEffect]) <;>
            (try intro x hx; simp [hx]) <;> omega
        · rw [finishPipeline_ok _ _ _ _ _ _ _ _ hp] at h
          injection h with hA hB
          subst hA; subst hB
          refine ⟨⟨[Effect.searchContacts bookingId email, Effect.createContact bookingId P,
              Effect.createPipelineItem bookingId
                (pipelineParamsOf cfg env bookingId b created.ContactId parsed.userMessage),
              Effect.markProcessed bookingId],
              by simp, ?_, ?_, ?_⟩, rfl, ?_, ?_, ?_, ?_⟩
          · simp [Effect.bookingTag]
          · simp [isCreateContactEffect, Effect.bookingTag]
          · simp [isPipelineCreateEffect, Effect.bookingTag,
              isCreateContactEffect]
          · simp only []
            split <;> simp
          · dsimp only
            omega
          · intro x hx
            simp [hx]
          · intro he
            refine ⟨by simp, by dsimp only; omega⟩
    · -- match: reuse the contact id
      simp only [afterSearch, hg, hm] at h
      by_cases hblog : parsed.blogAnswer.isEmpty = true
      · rw [if_pos hblog] at h
        rcases hp : env.createPipelineItem
            (pipelineParamsOf cfg env bookingId b (some cid) parsed.userMessage) with pe | piped
        · rw [finishPipeline_err _ _ _ _ _ _ _ _ hp] at h
          injection h with hA hB
          subst hA; subst hB
          refine ⟨⟨[Effect.searchContacts bookingId email,
              Effect.createPipelineItem bookingId
                (pipelineParamsOf cfg env bookingId b (some cid) parsed.userMessage)],
              by simp, ?_, ?_, ?_⟩, rfl, ?_, ?_, ?_, ?_⟩ <;>
            (try simp [Effect.bookingTag, isCreateContactEffect, isPipelineCreateEffect]) <;>
            (try intro x hx; simp [hx]) <;> omega
        · rw [finishPipeline_ok _ _ _ _ _ _ _ _ hp] at h
          injection h with hA hB
          subst hA; subst hB
          refine ⟨⟨[Effect.searchContacts bookingId email,
              Effect.createPipelineItem bookingId
                (pipelineParamsOf cfg env bookingId b (some cid) parsed.userMessage),
              Effect.markProcessed bookingId],
              by simp, ?_, ?_, ?_⟩, rfl, ?_, ?_, ?_, ?_⟩
          · simp [Effect.bookingTag]
          · simp [isCreateContactEffect]
          · simp [isPipelineCreateEffect, Effect.bookingTag, isCreateContactEffect]
          · simp only []
            split <;> simp
          · dsimp only
            omega
          · intro x hx
            simp [hx]
          · intro he
            refine ⟨by simp, by dsimp only; omega⟩
      · rw [if_neg hblog] at h
        rcases he : env.editContact cid (blogFieldKey cfg) parsed.blogAnswer with ee | u
        · simp only [he] at h
          injection h with hA hB
          subst hA; subst hB
          refine ⟨⟨[Effect.searchContacts bookingId email,
              Effect.editContact bookingId cid (blogFieldKey cfg) parsed.blogAnswer],
              by simp, ?_, ?_, ?_⟩, rfl, ?_, ?_, ?_, ?_⟩ <;>
            (try simp [Effect.bookingTag, isCreateContactEffect, isPipelineCreateEffect]) <;>
            (try intro x hx; simp [hx]) <;> omega
        · simp only [he] at h
          rcases hp : env.createPipelineItem
              (pipelineParamsOf cfg env bookingId b (some cid) parsed.userMessage) with pe | piped
          · rw [finishPipeline_err _ _ _ _ _ _ _ _ hp] at h
            injection h with hA hB
            subst hA; subst hB
            refine ⟨⟨[Effect.searchContacts bookingId email,
                Effect.editContact bookingId cid (blogFieldKey cfg) parsed.blogAnswer,
                Effect.createPipelineItem bookingId
                  (pipelineParamsOf cfg env bookingId b (some cid) parsed.userMessage)],
                by simp, ?_, ?_, ?_⟩, rfl, ?_, ?_, ?_, ?_⟩ <;>
              (try simp [Effect.bookingTag, isCreateContactEffect, isPipelineCreateEffect]) <;>
              (try intro x hx; simp [hx]) <;> omega
          · rw [finishPipeline_ok _ _ _ _ _ _ _ _ hp] at h
            injection h with hA hB
            subst hA; subst hB
            refine ⟨⟨[Effect.searchContacts bookingId email,
                Effect.editContact bookingId cid (blogFieldKey cfg) parsed.blogAnswer,
                Effect.createPipelineItem bookingId
                  (pipelineParamsOf cfg env bookingId b (some cid) parsed.userMessage),
                Effect.markProcessed bookingId],
                by simp, ?_, ?_, ?_⟩, rfl, ?_, ?_, ?_, ?_⟩
            · simp [Effect.bookingTag]
            · simp [isCreateContactEffect]
            · simp [isPipelineCreateEffect, Effect.bookingTag, isCreateContactEffect]
            · simp only []
              split <;> simp
            · dsimp only
              omega
            · intro x hx
              simp [hx]
            · intro hee
              refine ⟨by simp, by dsimp only; omega⟩

theorem processCandidate_skip (cfg : Config) (env : CrmEnv) (st : LoopState) (b : Booking)
    (hmem : bookingKey b ∈ st.processed) :
    processCandidate cfg env st b = ({ st with skipped := st.skipped + 1 }, none) := by
  simp only [processCandidate, if_pos hmem]

theorem processCandidate_spec (cfg : Config) (env : CrmEnv) (st fin : LoopState) (b : Booking)
    (err : Option String) (h : processCandidate cfg env st b = (fin, err)) :
    (∃ new, fin.effects = st.effects ++ new ∧
       (∀ e ∈ new, e.bookingTag = some (bookingKey b)) ∧
       List.countP isCreateContactEffect new ≤ 1 ∧
       List.countP isPipelineCreateEffect new ≤ 1 ∧
       (bookingKey b ∈ st.processed → new = [])) ∧
    (∀ x ∈ st.processed, x ∈ fin.processed) ∧
    (err = none → bookingKey b ∈ fin.processed) ∧
    (err = none →
      (fin.createdContacts = st.createdContacts ∧ fin.updatedContacts = st.updatedContacts ∧
        fin.skipped = st.skipped + 1 ∧ fin.pipelineItems = st.pipelineItems) ∨
      (fin.skipped = st.skipped ∧
        fin.createdContacts + fin.updatedContacts = st.createdContacts + st.updatedContacts + 1 ∧
        fin.pipelineItems ≤ st.pipelineItems + 1)) := by
  by_cases hmem : bookingKey b ∈ st.processed
  · rw [processCandidate_skip cfg env st b hmem] at h
    injection h with hA hB
    subst hA; subst hB
    refine ⟨⟨[], by simp, by simp, by simp, by simp, fun _ => rfl⟩, by simp, ?_, ?_⟩
    · intro _
      exact hmem
    · intro _
      exact Or.inl ⟨rfl, rfl, rfl, rfl⟩
  · by_cases hem : (emailOf b).isEmpty = true
    · simp only [processCandidate, if_neg hmem, if_pos hem] at h
      injection h with hA hB
      subst hA; subst hB
      refine ⟨⟨[Effect.markProcessed (bookingKey b)], rfl, by simp [Effect.bookingTag],
          by simp [isCreateContactEffect], by simp [isPipelineCreateEffect],
          fun hx => absurd hx hmem⟩, ?_, ?_, ?_⟩
      · intro x hx
        simp [hx]
      · intro _
        simp
      · intro _
        exact Or.inl ⟨rfl, rfl, rfl, rfl⟩
    · simp only [processCandidate, if_neg hmem, if_neg hem] at h
      obtain ⟨⟨new, he, htag, hc1, hc2⟩, hsk, hpipe, hsum, hmono, hlast⟩ :=
        afterSearch_spec _ _ _ _ _ _ _ _ _ _ h
      refine ⟨⟨new, he, htag, hc1, hc2, fun hx => absurd hx hmem⟩, hmono, ?_, ?_⟩
      · intro hn
        exact (hlast hn).1
      · intro hn
        exact Or.inr ⟨hsk, (hlast hn).2, hpipe⟩

theorem runLoop_nil (cfg : Config) (env : CrmEnv) (st : LoopState) :
    runLoop cfg env st [] = (st, none) := rfl

theorem runLoop_cons (cfg : Config) (env : CrmEnv) (st : LoopState) (b : Booking)
    (bs : List Booking) :
    runLoop cfg env st (b :: bs) =
      match processCandidate cfg env st b with
      | (st1, none) => runLoop cfg env st1 bs
      | (st1, some e) => (st1, some e) := rfl

theorem runLoop_processed_mono (cfg : Config) (env : CrmEnv) :
    ∀ (bs : List Booking) (st : LoopState) (x : String), x ∈ st.processed →
      x ∈ (runLoop cfg env st bs).1.processed := by
  intro bs
  induction bs with
  | nil =>
    intro st x hx
    exact hx
  | cons b bs ih =>
    intro st x hx
    rcases hpc : processCandidate cfg env st b with ⟨st1, err⟩
    have hmono := (processCandidate_spec cfg env st st1 b err hpc).2.1
    rw [runLoop_cons, hpc]
    rcases err with _ | e
    · exact ih st1 x (hmono x hx)
    · exact hmono x hx

theorem countP_effectFor_le (q : Effect → Bool) (id : String) (l : List Effect) :
    List.countP (effectFor q id) l ≤ List.countP q l := by
  refine List.countP_mono_left ?_
  intro e _ he
  unfold effectFor at he
  exact (Bool.and_eq_true _ _).mp he |>.1

theorem countP_effectFor_zero_of_tag (q : Effect → Bool) (id : String) (new : List Effect)
    (key : String) (hne : key ≠ id) (htag : ∀ e ∈ new, e.bookingTag = some key) :
    List.countP (effectFor q id) new = 0 := by
  rw [List.countP_eq_zero]
  intro e he
  unfold effectFor
  rw [htag e he]
  simp [hne]

theorem runLoop_count_le (cfg : Config) (env : CrmEnv) (q : Effect → Bool)
    (hq : q = isCreateContactEffect ∨ q = isPipelineCreateEffect) (id : String) :
    ∀ (bs : List Booking) (st : LoopState),
      List.countP (effectFor q id) st.effects ≤ 1 →
      (List.countP (effectFor q id) st.effects = 1 → id ∈ st.processed) →
      List.countP (effectFor q id) (runLoop cfg env st bs).1.effects ≤ 1 ∧
      ((runLoop cfg env st bs).2 = none →
        List.countP (effectFor q id) (runLoop cfg env st bs).1.effects = 1 →
        id ∈ (runLoop cfg env st bs).1.processed) := by
  intro bs
  induction bs with
  | nil =>
    intro st h1 h2
    exact ⟨h1, fun _ => h2⟩
  | cons b bs ih =>
    intro st h1 h2
    rcases hpc : processCandidate cfg env st b with ⟨st1, err⟩
    obtain ⟨⟨new, heff, htag, hc1, hc2, hmemnil⟩, hmono, hmarks, _⟩ :=
      processCandidate_spec cfg env st st1 b err hpc
    have hnewq : List.countP q new ≤ 1 := by
      rcases hq with rfl | rfl
      · exact hc1
      · exact hc2
    have hcount1 : List.countP (effectFor q id) st1.effects ≤ 1 := by
      rw [heff, List.countP_append]
      by_cases hkey : bookingKey b = id
      · by_cases hlook : id ∈ st.processed
        · rw [hmemnil (hkey ▸ hlook)]
          simpa using h1
        · have h0 : List.countP (effectFor q id) st.effects = 0 := by
            rcases Nat.lt_or_ge (List.countP (effectFor q id) st.effects) 1 with hlt | hge
            · omega
            · exact absurd (h2 (by omega)) hlook
          rw [h0]
          have hle := countP_effectFor_le q id new
          omega
      · rw [countP_effectFor_zero_of_tag q id new (bookingKey b) hkey htag]
        simpa using h1
    rw [runLoop_cons, hpc]
    rcases err with _ | e
    · have hcount2 : List.countP (effectFor q id) st1.effects = 1 → id ∈ st1.processed := by
        intro hone
        by_cases hkey : bookingKey b = id
        · exact hkey ▸ hmarks rfl
        · rw [heff, List.countP_append,
            countP_effectFor_zero_of_tag q id new (bookingKey b) hkey htag] at hone
          exact hmono id (h2 (by omega))
      exact ih st1 hcount1 hcount2
    · exact ⟨hcount1, by simp⟩

theorem runLoop_count_frozen (cfg : Config) (env : CrmEnv) (q : Effect → Bool) (id : String) :
    ∀ (bs : List Booking) (st : LoopState), id ∈ st.processed →
      List.countP (effectFor q id) (runLoop cfg env st bs).1.effects =
        List.countP (effectFor q id) st.effects := by
  intro bs
  induction bs with
  | nil =>
    intro st _
    rfl
  | cons b bs ih =>
    intro st hmem
    rcases hpc : processCandidate cfg env st b with ⟨st1, err⟩
    obtain ⟨⟨new, heff, htag, _, _, hmemnil⟩, hmono, _, _⟩ :=
      processCandidate_spec cfg env st st1 b err hpc
    have hstep : List.countP (effectFor q id) st1.effects =
        List.countP (effectFor q id) st.effects := by
      rw [heff, List.countP_append]
      by_cases hkey : bookingKey b = id
      · rw [hmemnil (hkey ▸ hmem)]
        simp
      · rw [countP_effectFor_zero_of_tag q id new (bookingKey b) hkey htag]
        simp
    rw [runLoop_cons, hpc]
    rcases err with _ | e
    · rw [ih st1 (hmono id hmem), hstep]
    · exact hstep

theorem runLoop_counters (cfg : Config) (env : CrmEnv) :
    ∀ (bs : List Booking) (st : LoopState),
      (runLoop cfg env st bs).2 = none →
      (runLoop cfg env st bs).1.createdContacts + (runLoop cfg env st bs).1.updatedContacts +
          (runLoop cfg env st bs).1.skipped =
        st.createdContacts + st.updatedContacts + st.skipped + bs.length ∧
      (runLoop cfg env st bs).1.pipelineItems + st.createdContacts + st.updatedContacts ≤
        st.pipelineItems + (runLoop cfg env st bs).1.createdContacts +
          (runLoop cfg env st bs).1.updatedContacts := by
  intro bs
  induction bs with
  | nil =>
    intro st _
    constructor
    · simp [runLoop_nil]
    · simp [runLoop_nil]
  | cons b bs ih =>
    intro st hok
    rcases hpc : processCandidate cfg env st b with ⟨st1, err⟩
    rw [runLoop_cons, hpc] at hok ⊢
    rcases err with _ | e
    · dsimp only at hok ⊢
      obtain ⟨_, _, _, hcnt⟩ := processCandidate_spec cfg env st st1 b none hpc
      obtain ⟨hsum, hpipe⟩ := ih st1 hok
      rcases hcnt rfl with ⟨e1, e2, e3, e4⟩ | ⟨e1, e2, e3⟩
      · constructor
        · rw [hsum, e1, e2, e3]
          simp [List.length_cons]
          omega
        · rw [e1, e2, e4] at hpipe
          omega
      · constructor
        · rw [hsum, e1]
          simp [List.length_cons]
          omega
        · omega
    · simp at hok

theorem runSyncPass_fetch_error (cfg : Config) (env : CrmEnv) (nowMs dateNowMs : Int)
    (st : SyncState) (e : String) :
    runSyncPass cfg env nowMs dateNowMs st (.error e) =
      { state := st, effects := [], response := .error e } := rfl

theorem runSyncPass_loop_error (cfg : Config) (env : CrmEnv) (nowMs dateNowMs : Int)
    (st : SyncState) (bookings : List Booking) (ls : LoopState) (e : String)
    (h : runLoop cfg env (initLoopState st)
        (bookings.filter (isCandidate (syncCutoff dateNowMs st))) = (ls, some e)) :
    runSyncPass cfg env nowMs dateNowMs st (.ok bookings) =
      { state := { st with processed := ls.processed }, effects := ls.effects,
        response := .error e } := by
  simp [runSyncPass, h]

theorem runSyncPass_loop_ok (cfg : Config) (env : CrmEnv) (nowMs dateNowMs : Int)
    (st : SyncState) (bookings : List Booking) (ls : LoopState)
    (h : runLoop cfg env (initLoopState st)
        (bookings.filter (isCandidate (syncCutoff dateNowMs st))) = (ls, none)) :
    runSyncPass cfg env nowMs dateNowMs st (.ok bookings) =
      { state := { lastSyncIso := some nowMs, processed := ls.processed }
        effects := ls.effects ++ [Effect.setLastSync nowMs]
        response := .ok
          { lastSyncWas := st.lastSyncIso, nowIso := nowMs, fetched := bookings.length,
            candidates := (bookings.filter (isCandidate (syncCutoff dateNowMs st))).length,
            createdContacts := ls.createdContacts, updatedContacts := ls.updatedContacts,
            pipelineItems := ls.pipelineItems, skipped := ls.skipped } } := by
  simp [runSyncPass, h]

/-! ### Claim theorems -/

/-- C2. After a pass whose response is a success, the persisted watermark is
exactly the timestamp captured at the start of the pass, so under a
non-decreasing clock it never decreases across successful passes; after a
pass whose response is an error, the watermark is unchanged. -/
theorem watermark_update_rule :
    (∀ (cfg : Config) (env : CrmEnv) (nowMs dateNowMs : Int) (st : SyncState)
        (fetched : Except String (List Booking)) (o : SyncOutcome),
      (runSyncPass cfg env nowMs dateNowMs st fetched).response = .ok o →
      (runSyncPass cfg env nowMs dateNowMs st fetched).state.lastSyncIso = some nowMs) ∧
    (∀ (cfg : Config) (env : CrmEnv) (nowMs dateNowMs : Int) (st : SyncState)
        (fetched : Except String (List Booking)) (e : String),
      (runSyncPass cfg env nowMs dateNowMs st fetched).response = .error e →
      (runSyncPass cfg env nowMs dateNowMs st fetched).state.lastSyncIso = st.lastSyncIso) ∧
    (∀ (cfg : Config) (env : CrmEnv) (nowMs dateNowMs : Int) (st : SyncState)
        (fetched : Except String (List Booking)) (o : SyncOutcome) (w : Int),
      (runSyncPass cfg env nowMs dateNowMs st fetched).response = .ok o →
      st.lastSyncIso = some w → w ≤ nowMs →
      ∃ w2, (runSyncPass cfg env nowMs dateNowMs st fetched).state.lastSyncIso = some w2 ∧
        w ≤ w2) := by
  have hok : ∀ (cfg : Config) (env : CrmEnv) (nowMs dateNowMs : Int) (st : SyncState)
      (fetched : Except String (List Booking)) (o : SyncOutcome),
      (runSyncPass cfg env nowMs dateNowMs st fetched).response = .ok o →
      (runSyncPass cfg env nowMs dateNowMs st fetched).state.lastSyncIso = some nowMs := by
    intro cfg env nowMs dateNowMs st fetched o hresp
    rcases fetched with e | bookings
    · rw [runSyncPass_fetch_error] at hresp
      cases hresp
    · rcases hl : runLoop cfg env (initLoopState st)
          (bookings.filter (isCandidate (syncCutoff dateNowMs st))) with ⟨ls, lerr⟩
      rcases lerr with _ | e
      · rw [runSyncPass_loop_ok cfg env nowMs dateNowMs st bookings ls hl]
      · rw [runSyncPass_loop_error cfg env nowMs dateNowMs st bookings ls e hl] at hresp
        cases hresp
  refine ⟨hok, ?_, ?_⟩
  · intro cfg env nowMs dateNowMs st fetched e hresp
    rcases fetched with fe | bookings
    · rw [runSyncPass_fetch_error]
    · rcases hl : runLoop cfg env (initLoopState st)
          (bookings.filter (isCandidate (syncCutoff dateNowMs st))) with ⟨ls, lerr⟩
      rcases lerr with _ | le
      · rw [runSyncPass_loop_ok cfg env nowMs dateNowMs st bookings ls hl] at hresp
        cases hresp
      · rw [runSyncPass_loop_error cfg env nowMs dateNowMs st bookings ls le hl]
  · intro cfg env nowMs dateNowMs st fetched o w hresp hw hle
    exact ⟨nowMs, hok cfg env nowMs dateNowMs st fetched o hresp, hle⟩

/-- C2 witness: a successful pass over an empty booking list advances the
watermark from 0 to the captured start time 5; a pass whose fetch throws
leaves the watermark at 0. -/
theorem watermark_update_rule_witness :
    (runSyncPass cfg0 stubEnv 5 5 st0 (.ok [])).response =
      .ok { lastSyncWas := some 0, nowIso := 5, fetched := 0, candidates := 0,
            createdContacts := 0, updatedContacts := 0, pipelineItems := 0, skipped := 0 } ∧
    (runSyncPass cfg0 stubEnv 5 5 st0 (.ok [])).state.lastSyncIso = some 5 ∧
    (runSyncPass cfg0 stubEnv 5 5 st0 (.error "boom")).response = .error "boom" ∧
    (runSyncPass cfg0 stubEnv 5 5 st0 (.error "boom")).state.lastSyncIso = some 0 ∧
    st0.lastSyncIso = some 0 ∧ (0 : Int) ≤ 5 ∧
    (∃ w2, (runSyncPass cfg0 stubEnv 5 5 st0 (.ok [])).state.lastSyncIso = some w2 ∧
      (0 : Int) ≤ w2) :=
  ⟨rfl,
   watermark_update_rule.1 cfg0 stubEnv 5 5 st0 (.ok []) _ rfl,
   rfl,
   watermark_update_rule.2.1 cfg0 stubEnv 5 5 st0 (.error "boom") "boom" rfl,
   rfl, by norm_num,
   watermark_update_rule.2.2 cfg0 stubEnv 5 5 st0 (.ok []) _ 0 rfl rfl (by norm_num)⟩

/-- C3. A fetched booking is a candidate for cutoff `w - overlapMs` exactly
when its id is truthy, its creation timestamp is present and strictly after
the cutoff, and its cancellation timestamp is not truthy; in particular a
booking created 90 seconds before the watermark `w` is a candidate. -/
theorem candidate_filter_rule :
    (∀ (w : Int) (b : Booking),
      isCandidate (w - overlapMs) b = true ↔
        (truthyS b.id = true ∧
          (∃ c, b.created_at = some c ∧ w - overlapMs < c) ∧
          truthyS b.cancelled_at = false)) ∧
    (∀ (w : Int) (b : Booking), truthyS b.id = true → truthyS b.cancelled_at = false →
      b.created_at = some (w - 90 * 1000) → isCandidate (w - overlapMs) b = true) := by
  have hiff : ∀ (w : Int) (b : Booking),
      isCandidate (w - overlapMs) b = true ↔
        (truthyS b.id = true ∧
          (∃ c, b.created_at = some c ∧ w - overlapMs < c) ∧
          truthyS b.cancelled_at = false) := by
    intro w b
    unfold isCandidate
    rcases hca : b.created_at with _ | c
    · simp [hca]
    · by_cases hid : truthyS b.id = true
      · by_cases hcan : truthyS b.cancelled_at = true
        · simp [hid, hcan]
        · simp only [Bool.not_eq_true] at hcan
          simp [hid, hcan, hca]
      · simp only [Bool.not_eq_true] at hid
        simp [hid]
  refine ⟨hiff, ?_⟩
  intro w b hid hcan hc
  rw [hiff]
  refine ⟨hid, ⟨w - 90 * 1000, hc, ?_⟩, hcan⟩
  have hov : overlapMs = 120000 := rfl
  omega

/-- C3 witness: with watermark 0 the booking `bkA` created at -90000 ms (90
seconds before the watermark) passes the filter. -/
theorem candidate_filter_rule_witness :
    (isCandidate (0 - overlapMs) { bkA with created_at := some (0 - 90 * 1000) } = true ↔
      (truthyS ({ bkA with created_at := some (0 - 90 * 1000) } : Booking).id = true ∧
        (∃ c, ({ bkA with created_at := some (0 - 90 * 1000) } : Booking).created_at = some c ∧
          0 - overlapMs < c) ∧
        truthyS ({ bkA with created_at := some (0 - 90 * 1000) } : Booking).cancelled_at =
          false)) ∧
    isCandidate (0 - overlapMs) { bkA with created_at := some (0 - 90 * 1000) } = true :=
  ⟨candidate_filter_rule.1 0 _,
   candidate_filter_rule.2 0 { bkA with created_at := some (0 - 90 * 1000) }
     (by decide) (by decide) rfl⟩

/-- C5. A candidate not yet processed whose trimmed contact email is empty is
handled by writing its ProcessedRecord and incrementing `skipped` only: the
state change is exactly the mark-processed write, and no Contact Directory
call is traced. -/
theorem missing_email_forward_progress (cfg : Config) (env : CrmEnv) (st : LoopState)
    (b : Booking) (hmem : bookingKey b ∉ st.processed) (hem : (emailOf b).isEmpty = true) :
    processCandidate cfg env st b =
      ({ st with
          processed := bookingKey b :: st.processed
          skipped := st.skipped + 1
          effects := st.effects ++ [Effect.markProcessed (bookingKey b)] }, none) ∧
    List.countP isCrmCallEffect (processCandidate cfg env st b).1.effects =
      List.countP isCrmCallEffect st.effects ∧
    bookingKey b ∈ (processCandidate cfg env st b).1.processed := by
  have heq : processCandidate cfg env st b =
      ({ st with
          processed := bookingKey b :: st.processed
          skipped := st.skipped + 1
          effects := st.effects ++ [Effect.markProcessed (bookingKey b)] }, none) := by
    simp only [processCandidate, if_neg hmem, if_pos hem]
  refine ⟨heq, ?_, ?_⟩
  · rw [heq]
    simp [List.countP_append, isCrmCallEffect]
  · rw [heq]
    simp

/-- C5 witness: the contact-less booking `bkNoEmail`, not yet processed,
gets marked processed with `skipped` incremented and no directory call. -/
theorem missing_email_forward_progress_witness :
    (bookingKey bkNoEmail ∉ ls0.processed) ∧ (emailOf bkNoEmail).isEmpty = true ∧
    (processCandidate cfg0 stubEnv ls0 bkNoEmail =
      ({ ls0 with
          processed := bookingKey bkNoEmail :: ls0.processed
          skipped := ls0.skipped + 1
          effects := ls0.effects ++ [Effect.markProcessed (bookingKey bkNoEmail)] }, none) ∧
     List.countP isCrmCallEffect (processCandidate cfg0 stubEnv ls0 bkNoEmail).1.effects =
       List.countP isCrmCallEffect ls0.effects ∧
     bookingKey bkNoEmail ∈ (processCandidate cfg0 stubEnv ls0 bkNoEmail).1.processed) :=
  ⟨by decide, by decide,
   missing_email_forward_progress cfg0 stubEnv ls0 bkNoEmail (by decide) (by decide)⟩

/-- C7. A trigger request is rejected whenever the job-token secret is not
configured or the supplied header does not equal it (absent headers read as
the empty string); any rejection short-circuits the route: the state is
untouched, no effect is traced, and the response is the rejection itself,
independently of the environment and the fetch outcome. -/
theorem trigger_auth_rejects_before_processing :
    (∀ (cfg : Config) (header : Option String),
      truthyS cfg.JOB_TOKEN = false ∨ orEmpty header ≠ orEmpty cfg.JOB_TOKEN →
      ∃ code msg, requireJobToken cfg header = some (code, msg) ∧
        (code = 403 ∨ code = 500)) ∧
    (∀ (cfg : Config) (env : CrmEnv) (header : Option String) (nowMs dateNowMs : Int)
        (st : SyncState) (fetched : Except String (List Booking)) (code : Nat) (msg : String),
      requireJobToken cfg header = some (code, msg) →
      tidycalSyncRoute cfg env header nowMs dateNowMs st fetched =
        (st, [], SyncResponse.rejected code msg)) := by
  constructor
  · intro cfg header hbad
    unfold requireJobToken
    by_cases htok : truthyS cfg.JOB_TOKEN = true
    · rcases hbad with hbad | hbad
      · rw [htok] at hbad
        cases hbad
      · rw [htok]
        simp only [Bool.not_true, Bool.false_eq_true, if_false]
        rw [if_pos hbad]
        exact ⟨403, "Forbidden", rfl, Or.inl rfl⟩
    · simp only [Bool.not_eq_true] at htok
      rw [htok]
      exact ⟨500, "Missing JOB_TOKEN env var", rfl, Or.inr rfl⟩
  · intro cfg env header nowMs dateNowMs st fetched code msg hrej
    unfold tidycalSyncRoute
    rw [hrej]

/-- C7 witness: with the secret configured as `tok`, a request with no
`X-Job-Token` header is rejected with a 403 and the route leaves the state
untouched with no effects. -/
theorem trigger_auth_rejects_before_processing_witness :
    (truthyS cfg0.JOB_TOKEN = false ∨ orEmpty none ≠ orEmpty cfg0.JOB_TOKEN) ∧
    (∃ code msg, requireJobToken cfg0 none = some (code, msg) ∧ (code = 403 ∨ code = 500)) ∧
    (requireJobToken cfg0 none = some (403, "Forbidden") ∧
      tidycalSyncRoute cfg0 stubEnv none 5 5 st0 (.ok []) =
        (st0, [], SyncResponse.rejected 403 "Forbidden")) :=
  ⟨Or.inr (by decide),
   trigger_auth_rejects_before_processing.1 cfg0 none (Or.inr (by decide)),
   by decide,
   trigger_auth_rejects_before_processing.2 cfg0 stubEnv none 5 5 st0 (.ok [])
     403 "Forbidden" (by decide)⟩

/-- C4. When the `CreatePipelineItem` call returns without throwing, the
booking is always marked processed — the mark-processed write happens and the
booking id enters the processed set — while the `pipelineItems` counter is
incremented exactly when the response reported an item id; and any candidate
with a usable email that `processCandidate` finishes without error ends up in
the processed set. -/
theorem processed_record_after_pipeline :
    (∀ (cfg : Config) (env : CrmEnv) (bookingId : String) (b : Booking)
        (contactId : Option String) (userMessage : String) (st : LoopState)
        (piped : PipelineResp),
      env.createPipelineItem (pipelineParamsOf cfg env bookingId b contactId userMessage) =
        .ok piped →
      (finishPipeline cfg env bookingId b contactId userMessage st).2 = none ∧
      bookingId ∈ (finishPipeline cfg env bookingId b contactId userMessage st).1.processed ∧
      Effect.markProcessed bookingId ∈
        (finishPipeline cfg env bookingId b contactId userMessage st).1.effects ∧
      (finishPipeline cfg env bookingId b contactId userMessage st).1.pipelineItems =
        st.pipelineItems + (if truthyS piped.PipelineItemId then 1 else 0)) ∧
    (∀ (cfg : Config) (env : CrmEnv) (st fin : LoopState) (b : Booking),
      bookingKey b ∉ st.processed → (emailOf b).isEmpty = false →
      processCandidate cfg env st b = (fin, none) → bookingKey b ∈ fin.processed) := by
  constructor
  · intro cfg env bookingId b contactId userMessage st piped h
    rw [finishPipeline_ok cfg env bookingId b contactId userMessage st piped h]
    refine ⟨rfl, by simp, by simp, rfl⟩
  · intro cfg env st fin b hmem hem h
    exact (processCandidate_spec cfg env st fin b none h).2.2.1 rfl

/-- C4 witness: with the all-success stub environment, `finishPipeline` on
booking id `b1` marks it processed and counts the reported pipeline item;
`processCandidate` on the unprocessed booking `bkA` ends with `b1`
processed. -/
theorem processed_record_after_pipeline_witness :
    (stubEnv.createPipelineItem (pipelineParamsOf cfg0 stubEnv "b1" bkA (some "c1") "") =
      .ok { PipelineItemId := some "p1" } ∧
     (finishPipeline cfg0 stubEnv "b1" bkA (some "c1") "" ls0).2 = none ∧
     "b1" ∈ (finishPipeline cfg0 stubEnv "b1" bkA (some "c1") "" ls0).1.processed ∧
     Effect.markProcessed "b1" ∈
       (finishPipeline cfg0 stubEnv "b1" bkA (some "c1") "" ls0).1.effects ∧
     (finishPipeline cfg0 stubEnv "b1" bkA (some "c1") "" ls0).1.pipelineItems =
       ls0.pipelineItems +
         (if truthyS (PipelineResp.mk (some "p1")).PipelineItemId then 1 else 0)) ∧
    (bookingKey bkA ∉ ls0.processed ∧ (emailOf bkA).isEmpty = false ∧
     bookingKey bkA ∈ (processCandidate cfg0 stubEnv ls0 bkA).1.processed) := by
  have h1 := processed_record_after_pipeline.1 cfg0 stubEnv "b1" bkA (some "c1") "" ls0
    { PipelineItemId := some "p1" } rfl
  have h2 := processed_record_after_pipeline.2 cfg0 stubEnv ls0
    (processCandidate cfg0 stubEnv ls0 bkA).1 bkA (by decide) (by decide) rfl
  exact ⟨⟨rfl, h1.1, h1.2.1, h1.2.2.1, h1.2.2.2⟩, by decide, by decide, h2⟩

/-- C6. A directory search result matches exactly when its `Email` field is
an array one of whose entries equals the candidate email after lowercasing
both sides; the match predicate is invariant under changes of letter case of
the candidate email; and whenever the search succeeds and a match with a
truthy ContactId is found, the loop body increments `updatedContacts` and
traces no contact creation. -/
theorem email_match_case_insensitive :
    (∀ (email : String) (c : SearchResult),
      resultMatches email c = true ↔
        ∃ entries, c.Email = some entries ∧
          ∃ en ∈ entries, jsToLower (orEmpty en.Text) = jsToLower email) ∧
    (∀ (email1 email2 : String) (c : SearchResult), jsToLower email1 = jsToLower email2 →
      resultMatches email1 c = resultMatches email2 c) ∧
    (∀ (cfg : Config) (env : CrmEnv) (bookingId email name : String)
        (parsed : ParsedQuestions) (b : Booking) (st fin : LoopState) (err : Option String)
        (resp : GetContactsResp) (cid : String),
      env.getContacts email = .ok resp →
      matchedContactId (findMatch email (resp.Results.getD [])) = some cid →
      afterSearch cfg env bookingId email name parsed b st = (fin, err) →
      fin.updatedContacts = st.updatedContacts + 1 ∧
      List.countP isCreateContactEffect fin.effects =
        List.countP isCreateContactEffect st.effects) := by
  refine ⟨?_, ?_, ?_⟩
  · intro email c
    unfold resultMatches
    rcases c.Email with _ | entries
    · simp
    · simp only [List.any_eq_true]
      constructor
      · rintro ⟨en, hen, hm⟩
        refine ⟨entries, rfl, en, hen, ?_⟩
        unfold emailEntryMatches at hm
        exact beq_iff_eq.mp hm
      · rintro ⟨entries2, he2, en, hen, hm⟩
        injection he2 with he2
        subst he2
        exact ⟨en, hen, beq_iff_eq.mpr hm⟩
  · intro email1 email2 c hcase
    unfold resultMatches
    rcases c.Email with _ | entries
    · rfl
    · simp only []
      congr 1
      funext en
      unfold emailEntryMatches
      rw [hcase]
  · intro cfg env bookingId email name parsed b st fin err resp cid hg hm h
    simp only [afterSearch, hg, hm] at h
    by_cases hblog : parsed.blogAnswer.isEmpty = true
    · rw [if_pos hblog] at h
      rcases hp : env.createPipelineItem
          (pipelineParamsOf cfg env bookingId b (some cid) parsed.userMessage) with pe | piped
      · rw [finishPipeline_err _ _ _ _ _ _ _ _ hp] at h
        injection h with hA hB
        subst hA
        refine ⟨rfl, ?_⟩
        simp [List.countP_append, isCreateContactEffect]
      · rw [finishPipeline_ok _ _ _ _ _ _ _ _ hp] at h
        injection h with hA hB
        subst hA
        refine ⟨rfl, ?_⟩
        simp [List.countP_append, isCreateContactEffect]
    · rw [if_neg hblog] at h
      rcases he : env.editContact cid (blogFieldKey cfg) parsed.blogAnswer with ee | u
      · simp only [he] at h
        injection h with hA hB
        subst hA
        refine ⟨rfl, ?_⟩
        simp [List.countP_append, isCreateContactEffect]
      · simp only [he] at h
        rcases hp : env.createPipelineItem
            (pipelineParamsOf cfg env bookingId b (some cid) parsed.userMessage) with pe | piped
        · rw [finishPipeline_err _ _ _ _ _ _ _ _ hp] at h
          injection h with hA hB
          subst hA
          refine ⟨rfl, ?_⟩
          simp [List.countP_append, isCreateContactEffect]
        · rw [finishPipeline_ok _ _ _ _ _ _ _ _ hp] at h
          injection h with hA hB
          subst hA
          refine ⟨rfl, ?_⟩
          simp [List.countP_append, isCreateContactEffect]

/-- C6 witness: the stored email `A@X.com` matches the candidate email
`a@x.com` though they differ only in case, and the loop body reuses contact
`c9`, incrementing `updatedContacts` without any contact creation. -/
theorem email_match_case_insensitive_witness :
    (resultMatches "a@x.com" matchResult = true ↔
      ∃ entries, matchResult.Email = some entries ∧
        ∃ en ∈ entries, jsToLower (orEmpty en.Text) = jsToLower "a@x.com") ∧
    (jsToLower "A@x.Com" = jsToLower "a@x.com" ∧
      resultMatches "A@x.Com" matchResult = resultMatches "a@x.com" matchResult) ∧
    (matchEnv.getContacts "a@x.com" = .ok { Results := some [matchResult] } ∧
     matchedContactId (findMatch "a@x.com" [matchResult]) = some "c9" ∧
     (afterSearch cfg0 matchEnv "b1" "a@x.com" "A"
         { blogAnswer := "", userMessage := "" } bkA ls0).1.updatedContacts =
       ls0.updatedContacts + 1 ∧
     List.countP isCreateContactEffect
         (afterSearch cfg0 matchEnv "b1" "a@x.com" "A"
           { blogAnswer := "", userMessage := "" } bkA ls0).1.effects =
       List.countP isCreateContactEffect ls0.effects) := by
  have h3 := email_match_case_insensitive.2.2 cfg0 matchEnv "b1" "a@x.com" "A"
    { blogAnswer := "", userMessage := "" } bkA ls0
    (afterSearch cfg0 matchEnv "b1" "a@x.com" "A"
      { blogAnswer := "", userMessage := "" } bkA ls0).1
    (afterSearch cfg0 matchEnv "b1" "a@x.com" "A"
      { blogAnswer := "", userMessage := "" } bkA ls0).2
    { Results := some [matchResult] } "c9" rfl (by decide) rfl
  exact ⟨email_match_case_insensitive.1 "a@x.com" matchResult,
    ⟨by decide, email_match_case_insensitive.2.1 "A@x.Com" "a@x.com" matchResult (by decide)⟩,
    rfl, by decide, h3.1, h3.2⟩

/-- C9. On every successful pass the returned counters satisfy
`createdContacts + updatedContacts + skipped = candidates` and
`pipelineItems ≤ createdContacts + updatedContacts`. -/
theorem outcome_counter_invariant (cfg : Config) (env : CrmEnv) (nowMs dateNowMs : Int)
    (st : SyncState) (fetched : Except String (List Booking)) (o : SyncOutcome)
    (h : (runSyncPass cfg env nowMs dateNowMs st fetched).response = .ok o) :
    o.createdContacts + o.updatedContacts + o.skipped = o.candidates ∧
    o.pipelineItems ≤ o.createdContacts + o.updatedContacts := by
  rcases fetched with e | bookings
  · rw [runSyncPass_fetch_error] at h
    cases h
  · rcases hl : runLoop cfg env (initLoopState st)
        (bookings.filter (isCandidate (syncCutoff dateNowMs st))) with ⟨ls, lerr⟩
    rcases lerr with _ | e
    · rw [runSyncPass_loop_ok cfg env nowMs dateNowMs st bookings ls hl] at h
      obtain ⟨hsum, hpipe⟩ := runLoop_counters cfg env
        (bookings.filter (isCandidate (syncCutoff dateNowMs st))) (initLoopState st)
        (by rw [hl])
      rw [hl] at hsum hpipe
      injection h with h
      subst h
      simp only [initLoopState] at hsum hpipe
      constructor
      · simpa using hsum
      · simpa using hpipe
    · rw [runSyncPass_loop_error cfg env nowMs dateNowMs st bookings ls e hl] at h
      cases h

/-- C9 witness: the successful pass over the two-booking list (one fresh,
one with no email) yields counters with created + updated + skipped =
candidates and pipelineItems bounded by created + updated. -/
theorem outcome_counter_invariant_witness :
    (runSyncPass cfg0 stubEnv 5 5 st0 (.ok [bkA, bkNoEmail])).response =
      .ok { lastSyncWas := some 0, nowIso := 5, fetched := 2, candidates := 2,
            createdContacts := 1, updatedContacts := 0, pipelineItems := 1, skipped := 1 } ∧
    (1 + 0 + 1 = 2 ∧ 1 ≤ 1 + 0) := by
  have hr : (runSyncPass cfg0 stubEnv 5 5 st0 (.ok [bkA, bkNoEmail])).response =
      .ok { lastSyncWas := some 0, nowIso := 5, fetched := 2, candidates := 2,
            createdContacts := 1, updatedContacts := 0, pipelineItems := 1, skipped := 1 } := by
    decide
  exact ⟨hr, outcome_counter_invariant cfg0 stubEnv 5 5 st0 (.ok [bkA, bkNoEmail]) _ hr⟩

/-- C10 counterexample. A POST whose `X-Hook-Secret` header is present but
empty is not answered with the handshake echo: with no stored secret the
handler answers 500 missing-configuration, so "every request carrying the
header is echoed with status 200" fails at this input. -/
theorem webhook_handshake_empty_header_cex :
    webhookHandler cexWebhookCfg cexWebhookEnv (some "") none "" =
      (WebhookResponse.missingSecretConfig, []) ∧
    (webhookHandler cexWebhookCfg cexWebhookEnv (some "") none "").1.status = 500 ∧
    (webhookHandler cexWebhookCfg cexWebhookEnv (some "") none "").1 ≠
      WebhookResponse.handshake "" := by
  refine ⟨by decide, by decide, by decide⟩

/-- C10 (amended). Every POST to the webhook endpoint carrying a non-empty
`X-Hook-Secret` header is answered with status 200 and the same header value
echoed back, with no signature verification, JSON parsing or external side
effect traced — regardless of configuration, environment, signature header
and request body. -/
theorem webhook_handshake_short_circuit (cfg : WebhookCfg) (env : WebhookEnv)
    (s : String) (sigHeader : Option String) (rawBody : String) (hs : s ≠ "") :
    webhookHandler cfg env (some s) sigHeader rawBody =
      (WebhookResponse.handshake s, []) ∧
    (WebhookResponse.handshake s).status = 200 ∧
    (WebhookResponse.handshake s).echoedSecret = some s := by
  have ht : truthyS (some s) = true := by
    have hie : s.isEmpty = false := by
      cases h : s.isEmpty
      · rfl
      · exact absurd ((String.isEmpty_iff s).mp h) hs
    simp [truthyS, hie]
  refine ⟨?_, rfl, rfl⟩
  simp [webhookHandler, ht, orEmpty]

/-- C10 witness: the handshake with secret value `abc` echoes `abc` with
status 200 and an empty effect trace. -/
theorem webhook_handshake_short_circuit_witness :
    ("abc" : String) ≠ "" ∧
    (webhookHandler cexWebhookCfg cexWebhookEnv (some "abc") (some "sig") "body" =
      (WebhookResponse.handshake "abc", []) ∧
     (WebhookResponse.handshake "abc").status = 200 ∧
     (WebhookResponse.handshake "abc").echoedSecret = some "abc") :=
  ⟨by decide,
   webhook_handshake_short_circuit cexWebhookCfg cexWebhookEnv "abc" (some "sig") "body"
     (by decide)⟩

/-- C1 counterexample. The at-most-once guarantee does not extend to a
retry after a *failed* pass: with an environment whose `CreatePipelineItem`
always throws, the first pass over `[bkA]` creates the contact and then
aborts before the mark-processed write, so the retry over the same response
reaches the booking without a ProcessedRecord and creates the contact a
second time — two contact creations for booking id `b1`. -/
theorem at_most_once_retry_cex :
    (runSyncPass cfg0 failPipeEnv 5 5 st0 (.ok [bkA])).response = .error "pipe down" ∧
    bookingKey bkA ∉ (runSyncPass cfg0 failPipeEnv 5 5 st0 (.ok [bkA])).state.processed ∧
    List.countP (effectFor isCreateContactEffect "b1")
        ((runSyncPass cfg0 failPipeEnv 5 5 st0 (.ok [bkA])).effects ++
         (runSyncPass cfg0 failPipeEnv 7 7
           (runSyncPass cfg0 failPipeEnv 5 5 st0 (.ok [bkA])).state (.ok [bkA])).effects) = 2 := by
  refine ⟨by decide, by decide, by decide⟩

/-- C1 (amended). (a) A candidate whose booking id already has a
ProcessedRecord is skipped outright — on every pass, also a retry after a
failure: the only state change is `skipped + 1`; no search, creation, edit,
pipeline call or store write is performed. (b) After a pass over a booking
list completes successfully, running a second pass over the same list never
brings the total number of traced contact creations, nor of pipeline-item
creations, for any single booking id above one. -/
theorem at_most_once_side_effects :
    (∀ (cfg : Config) (env : CrmEnv) (st : LoopState) (b : Booking),
      bookingKey b ∈ st.processed →
      processCandidate cfg env st b = ({ st with skipped := st.skipped + 1 }, none)) ∧
    (∀ (cfg : Config) (env : CrmEnv) (st : SyncState) (now1 dn1 now2 dn2 : Int)
        (bookings : List Booking) (o : SyncOutcome),
      (runSyncPass cfg env now1 dn1 st (.ok bookings)).response = .ok o →
      ∀ id : String,
        List.countP (effectFor isCreateContactEffect id)
            ((runSyncPass cfg env now1 dn1 st (.ok bookings)).effects ++
             (runSyncPass cfg env now2 dn2
               (runSyncPass cfg env now1 dn1 st (.ok bookings)).state (.ok bookings)).effects)
          ≤ 1 ∧
        List.countP (effectFor isPipelineCreateEffect id)
            ((runSyncPass cfg env now1 dn1 st (.ok bookings)).effects ++
             (runSyncPass cfg env now2 dn2
               (runSyncPass cfg env now1 dn1 st (.ok bookings)).state (.ok bookings)).effects)
          ≤ 1) := by
  constructor
  · intro cfg env st b hmem
    exact processCandidate_skip cfg env st b hmem
  · intro cfg env st now1 dn1 now2 dn2 bookings o hresp id
    have hset : ∀ (q : Effect → Bool) (n : Int),
        effectFor q id (Effect.setLastSync n) = false := by
      intro q n
      simp [effectFor, Effect.bookingTag]
    have key : ∀ (q : Effect → Bool),
        q = isCreateContactEffect ∨ q = isPipelineCreateEffect →
        List.countP (effectFor q id)
            ((runSyncPass cfg env now1 dn1 st (.ok bookings)).effects ++
             (runSyncPass cfg env now2 dn2
               (runSyncPass cfg env now1 dn1 st (.ok bookings)).state (.ok bookings)).effects)
          ≤ 1 := by
      intro q hq
      rcases hl1 : runLoop cfg env (initLoopState st)
          (bookings.filter (isCandidate (syncCutoff dn1 st))) with ⟨ls1, lerr1⟩
      rcases lerr1 with _ | e1
      · rw [runSyncPass_loop_ok cfg env now1 dn1 st bookings ls1 hl1]
        obtain ⟨hle1, himp1⟩ := runLoop_count_le cfg env q hq id
          (bookings.filter (isCandidate (syncCutoff dn1 st))) (initLoopState st)
          (by simp [initLoopState]) (by simp [initLoopState])
        rw [hl1] at hle1 himp1
        dsimp only at hle1 himp1
        set st1 : SyncState :=
          { lastSyncIso := some now1, processed := ls1.processed } with hst1
        have hcountset : ∀ n : Int,
            List.countP (effectFor q id) [Effect.setLastSync n] = 0 := by
          intro n
          simp [List.countP_cons, hset]
        rcases hl2 : runLoop cfg env (initLoopState st1)
            (bookings.filter (isCandidate (syncCutoff dn2 st1))) with ⟨ls2, lerr2⟩
        have hcount2 : List.countP (effectFor q id) ls1.effects = 1 →
            List.countP (effectFor q id) ls2.effects = 0 := by
          intro h1
          have hmem : id ∈ (initLoopState st1).processed := by
            simpa [initLoopState, hst1] using himp1 rfl h1
          have := runLoop_count_frozen cfg env q id
            (bookings.filter (isCandidate (syncCutoff dn2 st1))) (initLoopState st1) hmem
          rw [hl2] at this
          simpa [initLoopState] using this
        have hle2 : List.countP (effectFor q id) ls2.effects ≤ 1 := by
          have := (runLoop_count_le cfg env q hq id
            (bookings.filter (isCandidate (syncCutoff dn2 st1))) (initLoopState st1)
            (by simp [initLoopState]) (by simp [initLoopState])).1
          rw [hl2] at this
          dsimp only at this
          exact this
        have htotal : List.countP (effectFor q id) ls1.effects +
            List.countP (effectFor q id) ls2.effects ≤ 1 := by
          rcases Nat.le_one_iff_eq_zero_or_eq_one.mp hle1 with h0 | h1
          · omega
          · have := hcount2 h1
            omega
        rcases lerr2 with _ | e2
        · rw [runSyncPass_loop_ok cfg env now2 dn2 st1 bookings ls2 hl2]
          dsimp only
          simp only [List.countP_append, hcountset]
          omega
        · rw [runSyncPass_loop_error cfg env now2 dn2 st1 bookings ls2 e2 hl2]
          dsimp only
          simp only [List.countP_append, hcountset]
          omega
      · rw [runSyncPass_loop_error cfg env now1 dn1 st bookings ls1 e1 hl1] at hresp
        cases hresp
    exact ⟨key isCreateContactEffect (Or.inl rfl), key isPipelineCreateEffect (Or.inr rfl)⟩

/-- C1 witness: an already-processed candidate is skipped with no effect;
and after the successful pass over `[bkA]`, a second pass over the same
list leaves at most one traced contact creation and one pipeline creation
for booking id `b1`. -/
theorem at_most_once_side_effects_witness :
    (bookingKey bkA ∈ lsP.processed ∧
     processCandidate cfg0 stubEnv lsP bkA = ({ lsP with skipped := lsP.skipped + 1 }, none)) ∧
    ((runSyncPass cfg0 stubEnv 5 5 st0 (.ok [bkA])).response =
      .ok { lastSyncWas := some 0, nowIso := 5, fetched := 1, candidates := 1,
            createdContacts := 1, updatedContacts := 0, pipelineItems := 1, skipped := 0 } ∧
     List.countP (effectFor isCreateContactEffect "b1")
         ((runSyncPass cfg0 stubEnv 5 5 st0 (.ok [bkA])).effects ++
          (runSyncPass cfg0 stubEnv 7 7
            (runSyncPass cfg0 stubEnv 5 5 st0 (.ok [bkA])).state (.ok [bkA])).effects) ≤ 1 ∧
     List.countP (effectFor isPipelineCreateEffect "b1")
         ((runSyncPass cfg0 stubEnv 5 5 st0 (.ok [bkA])).effects ++
          (runSyncPass cfg0 stubEnv 7 7
            (runSyncPass cfg0 stubEnv 5 5 st0 (.ok [bkA])).state (.ok [bkA])).effects) ≤ 1) := by
  have hr : (runSyncPass cfg0 stubEnv 5 5 st0 (.ok [bkA])).response =
      .ok { lastSyncWas := some 0, nowIso := 5, fetched := 1, candidates := 1,
            createdContacts := 1, updatedContacts := 0, pipelineItems := 1, skipped := 0 } := by
    decide
  have hb := at_most_once_side_effects.2 cfg0 stubEnv st0 5 5 7 7 [bkA] _ hr "b1"
  exact ⟨⟨by decide, at_most_once_side_effects.1 cfg0 stubEnv lsP bkA (by decide)⟩,
    hr, hb.1, hb.2⟩

end LacrmSync
